import Mathlib

/-!
Verification development for the HHH habit-tracking backend.

The repository contains three implementations of the core logic:
* the service layer `src/backend/src/services/*.py` over the SQLAlchemy models
  in `src/backend/src/models/*.py` (namespace `Svc` below);
* the monolithic FastAPI app `src/backend/main.py` over `src/backend/models.py`
  (namespace `Mono` below);
* the minimal variant `src/minimal/backend/main.py` (namespace `Mini` below).

Databases are embedded as explicit lists of rows; every operation is a pure
function from a state (plus the server clock, passed explicitly as `today` /
`now`) to an `Except` carrying either the Python exception's message (service
layer, raising `ValueError`) or the HTTP status/detail pair (endpoints,
raising `HTTPException`).  Calendar dates are embedded as `Int` (epoch-day
count); timestamps as `Int`.
-/

deriving instance DecidableEq for Except

/-- Drop leading and trailing whitespace from a character list. -/
def trimWs (l : List Char) : List Char :=
  ((l.dropWhile Char.isWhitespace).reverse.dropWhile Char.isWhitespace).reverse

/-- Python's `str.strip()` (no arguments): remove leading and trailing
whitespace.  Implemented by structural recursion over the character list so
that concrete instances evaluate inside the kernel (`String.trim` is
well-founded and does not). -/
def pyStrip (s : String) : String := ⟨trimWs s.data⟩

/-- Replace the first element satisfying `p` by its image under `f` (models an
in-place SQLAlchemy mutation of the row returned by `.first()`). -/
def replaceFirst (p : α → Bool) (f : α → α) : List α → List α
  | [] => []
  | x :: xs => if p x then f x :: xs else x :: replaceFirst p f xs

/-- Drop the first element satisfying `p` (models `db.delete(row)` on the row
returned by `.first()`). -/
def removeFirst (p : α → Bool) : List α → List α
  | [] => []
  | x :: xs => if p x then xs else x :: removeFirst p xs

/-- Insert into a descending-sorted list of dates. -/
def insertDesc (x : Int) : List Int → List Int
  | [] => [x]
  | y :: ys => if y ≤ x then x :: y :: ys else y :: insertDesc x ys

/-- Sort dates in descending order (models `sorted(..., reverse=True)` /
`ORDER BY date DESC`). -/
def sortDesc : List Int → List Int
  | [] => []
  | x :: xs => insertDesc x (sortDesc xs)

namespace Svc

/-- `SectionType` from `src/backend/src/models/entry.py`: the three fixed
daily-tracking categories. -/
inductive SectionType where
  | Health
  | Happiness
  | Hela
deriving DecidableEq, Repr

/-- `SectionEntry` from `src/backend/src/models/entry.py`.  `entry_date` is a
calendar date (epoch days); `deleted_at` is the soft-delete timestamp
(`none` = active row).  `updated_at` carries the ORM's `onupdate=func.now()`
refresh; `created_at` is set once at insert. -/
structure SectionEntry where
  id : Nat
  user_id : Nat
  group_id : Nat
  section_type : SectionType
  content : String
  entry_date : Int
  edit_count : Nat
  is_flagged : Bool
  flagged_reason : Option String
  created_at : Int
  updated_at : Int
  deleted_at : Option Int
deriving DecidableEq, Repr

/-- The entry table plus the id generator (the source uses UUID strings;
fresh `Nat`s model the same "always fresh" behaviour). -/
structure ServiceDB where
  entries : List SectionEntry
  nextId : Nat
deriving DecidableEq, Repr

/-- Row predicate used by `_get_entry_by_id`: matching id and not soft-deleted. -/
def isActiveWithId (eid : Nat) (e : SectionEntry) : Bool :=
  e.id == eid && e.deleted_at == none

/-- `_get_entry_by_id` from `services/entry.py`: first active row with the id,
else `ValueError("Entry not found or deleted")`. -/
def getEntryById (db : ServiceDB) (eid : Nat) : Except String SectionEntry :=
  match db.entries.find? (isActiveWithId eid) with
  | none => .error "Entry not found or deleted"
  | some e => .ok e

/-- Key predicate of the central uniqueness invariant: active row with the
exact (user, group, section, date) tuple. -/
def isActiveKeyMatch (uid gid : Nat) (s : SectionType) (d : Int) (e : SectionEntry) : Bool :=
  e.user_id == uid && e.group_id == gid && e.section_type == s
    && e.entry_date == d && e.deleted_at == none

/-- Number of active rows for one (user, group, section, date) key. -/
def countActiveKey (db : ServiceDB) (uid gid : Nat) (s : SectionType) (d : Int) : Nat :=
  (db.entries.filter (isActiveKeyMatch uid gid s d)).length

/-- `create_entry` from `services/entry.py`: default the date to today, reject
blank content, reject a duplicate active key, else insert with
`edit_count = 0`.  NOTE: the source has no future-date check here. -/
def create_entry (db : ServiceDB) (user_id group_id : Nat) (section_type : SectionType)
    (content : String) (entry_date : Option Int) (today now : Int) :
    Except String (ServiceDB × SectionEntry) :=
  let edate := entry_date.getD today
  if pyStrip content == "" then
    .error "Content must not be empty"
  else if (db.entries.find? (isActiveKeyMatch user_id group_id section_type edate)).isSome then
    .error "Entry already exists for this section today"
  else
    let e : SectionEntry :=
      { id := db.nextId, user_id := user_id, group_id := group_id
        section_type := section_type, content := pyStrip content, entry_date := edate
        edit_count := 0, is_flagged := false, flagged_reason := none
        created_at := now, updated_at := now, deleted_at := none }
    .ok ({ entries := db.entries ++ [e], nextId := db.nextId + 1 }, e)

/-- The row mutation performed by `update_entry` on the fetched entry. -/
def applyUpdate (content : Option String) (section_type : Option SectionType) (now : Int)
    (e : SectionEntry) : SectionEntry :=
  let e1 := match content with
    | none => e
    | some c => { e with content := pyStrip c, edit_count := e.edit_count + 1 }
  let e2 := match section_type with
    | none => e1
    | some s => { e1 with section_type := s }
  { e2 with updated_at := now }

/-- `update_entry` from `services/entry.py`: fetch the active row, reject blank
content; replacing content bumps `edit_count` by one, a section-only update
does not. -/
def update_entry (db : ServiceDB) (entry_id : Nat) (content : Option String)
    (section_type : Option SectionType) (now : Int) :
    Except String (ServiceDB × SectionEntry) := do
  let e ← getEntryById db entry_id
  match content with
  | some c =>
    if pyStrip c == "" then
      .error "Content must not be empty"
    else
      let e' := applyUpdate content section_type now e
      .ok ({ db with entries := replaceFirst (isActiveWithId entry_id) (fun _ => e') db.entries }, e')
  | none =>
    let e' := applyUpdate none section_type now e
    .ok ({ db with entries := replaceFirst (isActiveWithId entry_id) (fun _ => e') db.entries }, e')

/-- `soft_delete_entry` from `services/entry.py`: fetch the active row and set
`deleted_at = now` (the ORM also refreshes `updated_at`). -/
def soft_delete_entry (db : ServiceDB) (entry_id : Nat) (now : Int) :
    Except String ServiceDB := do
  let _ ← getEntryById db entry_id
  .ok { db with
        entries := replaceFirst (isActiveWithId entry_id)
          (fun e => { e with deleted_at := some now, updated_at := now }) db.entries }

/-- Row predicate used by `restore_entry`'s query: matching id and owner,
with NO soft-delete filter. -/
def isOwnedWithId (eid uid : Nat) (e : SectionEntry) : Bool :=
  e.id == eid && e.user_id == uid

/-- `restore_entry` from `services/entry.py`: fetch by id and owner (deleted
rows included), reject a missing row and a row that is not deleted, then clear
`deleted_at`.  NOTE: the source does not re-check the active-key uniqueness
before restoring. -/
def restore_entry (db : ServiceDB) (entry_id user_id : Nat) (now : Int) :
    Except String (ServiceDB × SectionEntry) :=
  match db.entries.find? (isOwnedWithId entry_id user_id) with
  | none => .error "Entry not found"
  | some e =>
    match e.deleted_at with
    | none => .error "Entry is not deleted"
    | some _ =>
      let e' := { e with deleted_at := none, updated_at := now }
      .ok ({ db with entries := replaceFirst (isOwnedWithId entry_id user_id) (fun _ => e') db.entries }, e')

/-- Row predicate of `calculate_streak`'s query: the user's active rows,
optionally scoped to one group. -/
def streakRow (uid : Nat) (gid : Option Nat) (e : SectionEntry) : Bool :=
  e.user_id == uid && e.deleted_at == none
    && (match gid with | none => true | some g => e.group_id == g)

/-- The distinct `entry_date`s produced by `calculate_streak`'s query. -/
def activeEntryDates (db : ServiceDB) (uid : Nat) (gid : Option Nat) : List Int :=
  ((db.entries.filter (streakRow uid gid)).map (fun e => e.entry_date)).dedup

/-- The backward walk of `calculate_streak`: starting at `d`, count while each
day is in `dates`.  `fuel` bounds the recursion; with `fuel > ` the number of
distinct dates the walk always stops on a missing day first (the source's
`while` loop terminates for the same reason). -/
def backStreak (dates : List Int) : Int → Nat → Nat
  | _, 0 => 0
  | d, n + 1 => if d ∈ dates then backStreak dates (d - 1) n + 1 else 0

/-- `calculate_streak` from `services/entry.py`: distinct active entry dates,
0 when today is absent, else 1 + consecutive prior days present. -/
def calculate_streak (db : ServiceDB) (uid : Nat) (gid : Option Nat) (today : Int) : Nat :=
  let dates := activeEntryDates db uid gid
  backStreak dates today (dates.length + 1)

/-- `User` from `src/backend/src/models/user.py`, restricted to the fields the
analytics service reads (`id` and the soft-delete timestamp). -/
structure SUser where
  id : Nat
  deleted_at : Option Int
deriving DecidableEq, Repr

/-- Active row of the group: the (group_id, deleted_at IS NULL) part of the
analytics filters. -/
def activeInGroup (gid : Nat) (e : SectionEntry) : Bool :=
  e.group_id == gid && e.deleted_at == none

/-- The correlated subquery inside `get_group_analytics`'s `avg_streak`: the
user's all-time count of active entries in the group (no date window). -/
def userEntryCount (entries : List SectionEntry) (gid uid : Nat) : Nat :=
  (entries.filter (fun e => e.user_id == uid && activeInGroup gid e)).length

/-- `avg_streak` as computed by `get_group_analytics` in
`src/backend/src/services/analytics.py`: `AVG` over ALL non-deleted users in
the system of each user's all-time active-entry count in the group (`or 0`
turns SQL `NULL` — no users — into 0). -/
def avg_streak (users : List SUser) (entries : List SectionEntry) (gid : Nat) : Rat :=
  let us := users.filter (fun u => u.deleted_at == none)
  if us.isEmpty then 0
  else ((us.map (fun u => userEntryCount entries gid u.id)).sum : Rat) / (us.length : Rat)

/-- The `active_users` aggregate of `get_group_analytics`: distinct users with
at least one active entry in the window for the group. -/
def activeUserIdsInWindow (entries : List SectionEntry) (gid : Nat) (ws we : Int) : List Nat :=
  ((entries.filter (fun e =>
    e.group_id == gid && e.deleted_at == none
      && decide (ws ≤ e.entry_date) && decide (e.entry_date ≤ we))).map
    (fun e => e.user_id)).dedup

/-- Modelled from the claim's wording (for comparison with `avg_streak`):
the arithmetic mean, across the active users — the distinct users with at
least one active entry in the window for the group — of each such user's
total count of active entries in the group. -/
def avgStreakPerClaim (entries : List SectionEntry) (gid : Nat) (ws we : Int) : Rat :=
  let ids := activeUserIdsInWindow entries gid ws we
  if ids.isEmpty then 0
  else ((ids.map (fun i => userEntryCount entries gid i)).sum : Rat) / (ids.length : Rat)

/-- Total active entries in the group whose author belongs to `ids` (used to
restate `avg_streak` as total-over-headcount). -/
def countActiveByUsers (entries : List SectionEntry) (gid : Nat) (ids : List Nat) : Nat :=
  (entries.filter (fun e => decide (e.user_id ∈ ids) && activeInGroup gid e)).length

/-- `GroupMember` from `src/backend/src/models/group_member.py`, restricted to
the fields `services/group.py` reads. -/
structure SMember where
  id : Nat
  group_id : Nat
  user_id : Nat
  deleted_at : Option Int
deriving DecidableEq, Repr

/-- Active-membership predicate used by `remove_member`'s query. -/
def isActiveMembership (gid uid : Nat) (m : SMember) : Bool :=
  m.group_id == gid && m.user_id == uid && m.deleted_at == none

/-- `remove_member` from `src/backend/src/services/group.py`: soft-delete the
active membership, 404 when absent.  NOTE: the source performs NO owner check
here (the GraphQL mutation `removeGroupMember` calls it directly). -/
def remove_member (members : List SMember) (gid uid : Nat) (now : Int) :
    Except (Nat × String) (List SMember) :=
  match members.find? (isActiveMembership gid uid) with
  | none => .error (404, "Membership not found")
  | some _ =>
    .ok (replaceFirst (isActiveMembership gid uid)
      (fun m => { m with deleted_at := some now }) members)

/-- `Group` from `src/backend/src/models/group.py`, restricted to the fields
relevant to ownership (`admin_id` is the single owner/admin). -/
structure SGroup where
  id : Nat
  admin_id : Option Nat
  deleted_at : Option Int
deriving DecidableEq, Repr

end Svc

namespace Mono

/-- `User` from `src/backend/models.py` (monolithic app), restricted to the
fields the modelled endpoints read. -/
structure MUser where
  id : Nat
  email : String
  name : String
deriving DecidableEq, Repr

/-- `Group` from `src/backend/models.py`. -/
structure MGroup where
  id : Nat
  name : String
  owner_id : Nat
deriving DecidableEq, Repr

/-- `GroupMember` from `src/backend/models.py` (hard-deleted, no
`deleted_at`). -/
structure MMember where
  id : Nat
  group_id : Nat
  user_id : Nat
deriving DecidableEq, Repr

/-- `Entry` from `src/backend/models.py`.  The `section` column (a plain
string: health / happiness / hela) is named `section_str` here because
`section` is a Lean keyword. -/
structure MEntry where
  id : Nat
  user_id : Nat
  group_id : Nat
  section_str : String
  content : String
  date : Int
  updated_at : Int
deriving DecidableEq, Repr

/-- The monolithic app's database. -/
structure MState where
  users : List MUser
  groups : List MGroup
  members : List MMember
  entries : List MEntry
  nextId : Nat
deriving DecidableEq, Repr

/-- An `HTTPException`: status code and detail string. -/
abbrev HttpErr := Nat × String

/-- Membership-row predicate (the monolith filters on (group_id, user_id)). -/
def memberRow (gid uid : Nat) (m : MMember) : Bool :=
  m.group_id == gid && m.user_id == uid

/-- `DELETE /api/groups/{group_id}/members/{user_id}` from
`src/backend/main.py`: 404 on missing group, 403 unless the caller is the
owner, 400 on an attempt to remove the owner, 404 on a missing membership,
else hard-delete the membership row.  Every error is raised before any
mutation, so an error leaves the state unchanged. -/
def remove_member (st : MState) (gid uid cur : Nat) : Except HttpErr MState :=
  match st.groups.find? (fun g => g.id == gid) with
  | none => .error (404, "Group not found")
  | some g =>
    if g.owner_id != cur then
      .error (403, "Only the group owner can remove members")
    else if uid == g.owner_id then
      .error (400, "Cannot remove the group owner from the group")
    else
      match st.members.find? (memberRow gid uid) with
      | none => .error (404, "Member not found in this group")
      | some _ => .ok { st with members := removeFirst (memberRow gid uid) st.members }

/-- `PUT /api/groups/{group_id}/owner` from `src/backend/main.py`
(`transfer_ownership`): only the current owner may transfer, self-transfer is
rejected, the new owner must hold a membership row and exist as a user; on
success only the group's `owner_id` is reassigned. -/
def transfer_ownership (st : MState) (gid newOwner cur : Nat) : Except HttpErr MState :=
  match st.groups.find? (fun g => g.id == gid) with
  | none => .error (404, "Group not found")
  | some g =>
    if g.owner_id != cur then
      .error (403, "Only the current owner can transfer ownership")
    else if newOwner == cur then
      .error (400, "You are already the owner of this group")
    else if (st.members.find? (memberRow gid newOwner)).isNone then
      .error (400, "New owner must be a member of the group")
    else if (st.users.find? (fun u => u.id == newOwner)).isNone then
      .error (404, "New owner user not found")
    else
      .ok { st with
            groups := replaceFirst (fun g' => g'.id == gid)
              (fun g' => { g' with owner_id := newOwner }) st.groups }

/-- Entry-key predicate of the monolith's upsert lookup. -/
def entryKeyRow (uid gid : Nat) (sec : String) (d : Int) (e : MEntry) : Bool :=
  e.user_id == uid && e.group_id == gid && e.section_str == sec && e.date == d

/-- `POST /api/entries` from `src/backend/main.py` (`create_or_update_entry`):
404 on missing group, 403 on missing membership, 400 on a future date
(checked before the upsert lookup), then update the existing row's content or
insert a new row. -/
def create_or_update_entry (st : MState) (cur gid : Nat) (sec content : String)
    (entry_date : Option Int) (today now : Int) : Except HttpErr (MState × MEntry) :=
  if (st.groups.find? (fun g => g.id == gid)).isNone then
    .error (404, "Group not found")
  else if (st.members.find? (memberRow gid cur)).isNone then
    .error (403, "You are not a member of this group")
  else
    let edate := entry_date.getD today
    if edate > today then
      .error (400, "Cannot create entries for future dates")
    else
      match st.entries.find? (entryKeyRow cur gid sec edate) with
      | some ex =>
        let e' := { ex with content := content, updated_at := now }
        .ok ({ st with entries := replaceFirst (entryKeyRow cur gid sec edate) (fun _ => e') st.entries }, e')
      | none =>
        let e : MEntry :=
          { id := st.nextId, user_id := cur, group_id := gid, section_str := sec
            content := content, date := edate, updated_at := now }
        .ok ({ st with entries := st.entries ++ [e], nextId := st.nextId + 1 }, e)

/-- Distinct sections logged by the user in the group on day `d`. -/
def sectionsOn (entries : List MEntry) (uid gid : Nat) (d : Int) : List String :=
  ((entries.filter (fun e =>
    e.user_id == uid && e.group_id == gid && e.date == d)).map
    (fun e => e.section_str)).dedup

/-- The `GROUP BY date HAVING COUNT(DISTINCT section) = 3` query of
`GET /api/analytics/streak`: the user's complete days in the group. -/
def completeDates (entries : List MEntry) (uid gid : Nat) : List Int :=
  (((entries.filter (fun e => e.user_id == uid && e.group_id == gid)).map
    (fun e => e.date)).dedup).filter
    (fun d => (sectionsOn entries uid gid d).length == 3)

/-- The backward-walk loop of `get_streak` (identical in `src/backend/main.py`
and `src/minimal/backend/main.py`): over the complete dates in descending
order, a date equal to the expected day extends the streak, a date exactly one
day earlier also extends it (re-anchoring the walk), anything else stops. -/
def streakLoop : List Int → Int → Nat → Nat
  | [], _, streak => streak
  | d :: rest, check, streak =>
    if d == check then streakLoop rest (check - 1) (streak + 1)
    else if d == check - 1 then streakLoop rest (d - 1) (streak + 1)
    else streak

/-- `GET /api/analytics/streak` core computation (`get_streak`): the loop over
the user's complete dates sorted descending, starting at today (an empty date
list returns 0, which the loop also yields). -/
def get_streak (entries : List MEntry) (uid gid : Nat) (today : Int) : Nat :=
  streakLoop (sortDesc (completeDates entries uid gid)) today 0

/-- The generic message of `POST /api/auth/password/forgot`. -/
def genericForgotMessage : String :=
  "If an account exists with this email, a reset link has been sent."

/-- Stand-in for `create_password_reset_token` in `src/backend/auth.py` (an
HMAC-signed token; its derivation is irrelevant to the claims here, where only
its presence in a response matters). -/
def create_password_reset_token (email : String) : String :=
  String.append "reset:" email

/-- The JSON body returned by `forgot_password`; the optional keys are present
only on the branches that add them to `response_data`. -/
structure ForgotResponse where
  message : String
  email_sent : Option Bool := none
  reset_token : Option String := none
  email_error : Option String := none
  email_configured : Option Bool := none
deriving DecidableEq, Repr

/-- `POST /api/auth/password/forgot` from `src/backend/main.py`: an unknown
email yields the bare generic message; a known email yields the generic
message plus `email_sent` when the reset email was dispatched, or (outside
production) a `reset_token` with `email_error` / `email_configured`
diagnostics.  The external mailer is abstracted by the `emailConfigured` /
`sendOk` / `sendError` parameters. -/
def forgot_password (users : List MUser) (email : String)
    (isProduction emailConfigured sendOk : Bool) (sendError : String) : ForgotResponse :=
  match users.find? (fun u => u.email == email) with
  | none => { message := genericForgotMessage }
  | some _ =>
    let token := create_password_reset_token email
    if emailConfigured then
      if sendOk then
        { message := genericForgotMessage, email_sent := some true }
      else if !isProduction then
        { message := genericForgotMessage, reset_token := some token, email_error := some sendError }
      else
        { message := genericForgotMessage }
    else if !isProduction then
      { message := genericForgotMessage, reset_token := some token, email_configured := some false }
    else
      { message := genericForgotMessage }

end Mono

namespace Mini

/-- The generic message of the minimal variant's forgot-password endpoint. -/
def genericForgotMessage : String :=
  "If account exists, a reset link was sent."

/-- The JSON body returned by the minimal `forgot_password`. -/
structure ForgotResponse where
  message : String
  reset_token : Option String := none
deriving DecidableEq, Repr

/-- `POST /api/auth/password/forgot` from `src/minimal/backend/main.py`: an
unknown email yields the bare generic message; a known email yields the
generic message plus the reset token (returned unconditionally "for dev"). -/
def forgot_password (users : List Mono.MUser) (email : String) : ForgotResponse :=
  match users.find? (fun u => u.email == email) with
  | none => { message := genericForgotMessage }
  | some _ =>
    { message := genericForgotMessage
      reset_token := some (Mono.create_password_reset_token email) }

end Mini

/-! ### Concrete scenarios used by the claim theorems and witnesses -/

/-- A minimal active entry for user 1 in group 1 on day `d` (Health section). -/
def sampleEntry (id : Nat) (d : Int) : Svc.SectionEntry :=
  { id := id, user_id := 1, group_id := 1, section_type := .Health
    content := "x", entry_date := d, edit_count := 0, is_flagged := false
    flagged_reason := none, created_at := 0, updated_at := 0, deleted_at := none }

/-- Entries on today (0), yesterday (-1) and three days ago (-3): the spec's
first streak scenario. -/
def streakDB1 : Svc.ServiceDB :=
  { entries := [sampleEntry 0 0, sampleEntry 1 (-1), sampleEntry 2 (-3)], nextId := 3 }

/-- An entry yesterday but none today: the spec's second streak scenario. -/
def streakDB2 : Svc.ServiceDB :=
  { entries := [sampleEntry 0 (-1)], nextId := 1 }

/-- The empty service database. -/
def emptySvcDB : Svc.ServiceDB := { entries := [], nextId := 0 }

/-- The operation sequence exhibiting the restore-uniqueness violation:
create an entry, soft-delete it, create a second entry with the same
(user, group, section, date) key, then restore the first. -/
def restoreViolationRun : Except String Svc.ServiceDB := do
  let (db1, e1) ← Svc.create_entry emptySvcDB 1 1 .Health "first" none 0 10
  let db2 ← Svc.soft_delete_entry db1 e1.id 20
  let (db3, _) ← Svc.create_entry db2 1 1 .Health "second" none 0 30
  let (db4, _) ← Svc.restore_entry db3 e1.id 1 40
  .ok db4

/-- A monolith entry for user 1 in group 1. -/
def monoEntry (id : Nat) (sec : String) (d : Int) : Mono.MEntry :=
  { id := id, user_id := 1, group_id := 1, section_str := sec
    content := "x", date := d, updated_at := 0 }

/-- All three sections complete on today (0) and on day -2, nothing on -1:
the gap scenario for the all-3-sections streak. -/
def gapEntries : List Mono.MEntry :=
  [monoEntry 0 "health" 0, monoEntry 1 "happiness" 0, monoEntry 2 "hela" 0,
   monoEntry 3 "health" (-2), monoEntry 4 "happiness" (-2), monoEntry 5 "hela" (-2)]

/-- Group 1 whose owner/admin is user 7 (service-layer model). -/
def ownerSGroup : Svc.SGroup := { id := 1, admin_id := some 7, deleted_at := none }

/-- User 7's active membership in group 1 (service-layer model). -/
def ownerMembership : Svc.SMember := { id := 0, group_id := 1, user_id := 7, deleted_at := none }

/-- One registered user for the forgot-password comparison. -/
def oneUser : List Mono.MUser := [{ id := 1, email := "alice@example.com", name := "Alice" }]

/-- Two non-deleted users; only user 1 has entries. -/
def twoSUsers : List Svc.SUser := [{ id := 1, deleted_at := none }, { id := 2, deleted_at := none }]

/-- Two active entries by user 1 in group 1, inside the last-30-days window. -/
def analyticsEntries : List Svc.SectionEntry :=
  [sampleEntry 0 0,
   { sampleEntry 1 (-1) with section_type := .Happiness }]

/-- First create, then a second create with the identical active key. -/
def duplicateCreateRun : Except String (Svc.ServiceDB × Svc.SectionEntry) := do
  let (db1, _) ← Svc.create_entry emptySvcDB 1 1 .Health "first" none 0 10
  Svc.create_entry db1 1 1 .Health "second" none 0 30

/-- A monolith state: users 1 and 2, group 1 owned by user 1, both users
members, no entries. -/
def monoState : Mono.MState :=
  { users := [{ id := 1, email := "a@x", name := "A" }, { id := 2, email := "b@x", name := "B" }]
    groups := [{ id := 1, name := "g", owner_id := 1 }]
    members := [{ id := 0, group_id := 1, user_id := 1 }, { id := 1, group_id := 1, user_id := 2 }]
    entries := [], nextId := 2 }

/-- The state after user 1 transfers ownership of group 1 to user 2. -/
def monoStateAfterTransfer : Mono.MState :=
  { monoState with groups := [{ id := 1, name := "g", owner_id := 2 }] }


/-! ### Generic list lemmas about the row-mutation helpers -/

theorem mem_replaceFirst {p : α → Bool} {f : α → α} {x : α} {l : List α}
    (hx : x ∈ replaceFirst p f l) : x ∈ l ∨ ∃ y ∈ l, p y = true ∧ x = f y := by
  induction l with
  | nil => simp [replaceFirst] at hx
  | cons a t ih =>
    cases hpa : p a with
    | true =>
      simp only [replaceFirst, hpa, if_true, List.mem_cons] at hx
      rcases hx with h | h
      · exact Or.inr ⟨a, List.mem_cons_self a t, hpa, h⟩
      · exact Or.inl (List.mem_cons_of_mem _ h)
    | false =>
      simp only [replaceFirst, hpa, Bool.false_eq_true, if_false, List.mem_cons] at hx
      rcases hx with h | h
      · exact Or.inl (by simp [h])
      · rcases ih h with h2 | ⟨y, hy, hpy, hxy⟩
        · exact Or.inl (List.mem_cons_of_mem _ h2)
        · exact Or.inr ⟨y, List.mem_cons_of_mem _ hy, hpy, hxy⟩

theorem mem_replaceFirst_of_neg {p : α → Bool} {f : α → α} {x : α} {l : List α}
    (hx : x ∈ l) (hpx : p x = false) : x ∈ replaceFirst p f l := by
  induction l with
  | nil => simp at hx
  | cons a t ih =>
    rcases List.mem_cons.mp hx with rfl | h
    · simp [replaceFirst, hpx]
    · cases hpa : p a with
      | true =>
        simp only [replaceFirst, hpa, if_true, List.mem_cons]
        exact Or.inr h
      | false =>
        simp only [replaceFirst, hpa, Bool.false_eq_true, if_false, List.mem_cons]
        exact Or.inr (ih h)

theorem find?_replaceFirst_same {p : α → Bool} {f : α → α} {l : List α} {a : α}
    (hfind : l.find? p = some a) (hpf : p (f a) = true) :
    (replaceFirst p f l).find? p = some (f a) := by
  induction l with
  | nil => simp at hfind
  | cons x t ih =>
    cases hpx : p x with
    | true =>
      rw [List.find?_cons_of_pos _ hpx] at hfind
      have hxa : x = a := by injection hfind
      subst hxa
      simp only [replaceFirst, hpx, if_true]
      exact List.find?_cons_of_pos _ hpf
    | false =>
      rw [List.find?_cons_of_neg _ (by simp [hpx])] at hfind
      simp only [replaceFirst, hpx, Bool.false_eq_true, if_false]
      rw [List.find?_cons_of_neg _ (by simp [hpx])]
      exact ih hfind

/-! ### Lemmas about the backward streak walk -/

theorem backStreak_mem {dates : List Int} : ∀ (n : Nat) (d : Int) (i : Nat),
    i < Svc.backStreak dates d n → (d - (i : Int)) ∈ dates := by
  intro n
  induction n with
  | zero => intro d i h; simp [Svc.backStreak] at h
  | succ m ih =>
    intro d i h
    rw [Svc.backStreak] at h
    by_cases hd : d ∈ dates
    · rw [if_pos hd] at h
      cases i with
      | zero => simpa using hd
      | succ j =>
        have hj : j < Svc.backStreak dates (d - 1) m := by omega
        have hmem := ih (d - 1) j hj
        have heq : d - ((j + 1 : Nat) : Int) = (d - 1) - (j : Int) := by push_cast; ring
        rw [heq]; exact hmem
    · rw [if_neg hd] at h; omega

theorem backStreak_stop {dates : List Int} : ∀ (n : Nat) (d : Int),
    Svc.backStreak dates d n < n →
    (d - (Svc.backStreak dates d n : Int)) ∉ dates := by
  intro n
  induction n with
  | zero => intro d h; omega
  | succ m ih =>
    intro d h
    rw [Svc.backStreak] at h ⊢
    by_cases hd : d ∈ dates
    · rw [if_pos hd] at h ⊢
      have h2 : Svc.backStreak dates (d - 1) m < m := by omega
      have hstop := ih (d - 1) h2
      have heq : d - ((Svc.backStreak dates (d - 1) m + 1 : Nat) : Int)
          = (d - 1) - (Svc.backStreak dates (d - 1) m : Int) := by push_cast; ring
      rw [heq]; exact hstop
    · rw [if_neg hd]
      simpa using hd

theorem backStreak_le {dates : List Int} (hnd : dates.Nodup) (n : Nat) (d : Int) :
    Svc.backStreak dates d n ≤ dates.length := by
  by_contra hcon
  push_neg at hcon
  have hmem : ∀ i < Svc.backStreak dates d n, (d - (i : Int)) ∈ dates :=
    fun i hi => backStreak_mem n d i hi
  have hlnd : ((List.range (Svc.backStreak dates d n)).map (fun (i : Nat) => d - (i : Int))).Nodup := by
    refine List.Nodup.map ?_ (List.nodup_range _)
    intro a b hab
    have h2 : d - (a : Int) = d - (b : Int) := hab
    omega
  have hsub : ∀ x ∈ (List.range (Svc.backStreak dates d n)).map (fun (i : Nat) => d - (i : Int)),
      x ∈ dates := by
    intro x hx
    simp only [List.mem_map, List.mem_range] at hx
    obtain ⟨i, hi, rfl⟩ := hx
    exact hmem i hi
  have h1 : ((List.range (Svc.backStreak dates d n)).map (fun (i : Nat) => d - (i : Int))).length
      = Svc.backStreak dates d n := by simp
  have h2 := List.toFinset_card_of_nodup hlnd
  have h4 := List.toFinset_card_of_nodup hnd
  have h3 : ((List.range (Svc.backStreak dates d n)).map (fun (i : Nat) => d - (i : Int))).toFinset
      ⊆ dates.toFinset := by
    intro x hx
    rw [List.mem_toFinset] at hx ⊢
    exact hsub x hx
  have h5 := Finset.card_le_card h3
  have h6 := List.toFinset_card_le dates
  omega

/-- C1: for every user and optional group scope, `calculate_streak` returns the
number of consecutive calendar days walking backward from today, each having at
least one active entry in any section: every day within the returned streak has
an active entry, the day just past the streak does not, today without an active
entry yields 0, and the spec's two concrete scenarios (entries on today /
yesterday / 3 days ago give 2; no entry today gives 0) hold. -/
theorem C1_calculate_streak_consecutive_days (db : Svc.ServiceDB) (uid : Nat)
    (gid : Option Nat) (today : Int) :
    (∀ i : Nat, i < Svc.calculate_streak db uid gid today →
        (today - (i : Int)) ∈ Svc.activeEntryDates db uid gid)
    ∧ (today - (Svc.calculate_streak db uid gid today : Int)) ∉ Svc.activeEntryDates db uid gid
    ∧ (today ∉ Svc.activeEntryDates db uid gid → Svc.calculate_streak db uid gid today = 0)
    ∧ Svc.calculate_streak streakDB1 1 none 0 = 2
    ∧ Svc.calculate_streak streakDB2 1 none 0 = 0 := by
  have hnd : (Svc.activeEntryDates db uid gid).Nodup := List.nodup_dedup _
  have hle := backStreak_le hnd ((Svc.activeEntryDates db uid gid).length + 1) today
  have hlt : Svc.backStreak (Svc.activeEntryDates db uid gid) today
      ((Svc.activeEntryDates db uid gid).length + 1)
      < (Svc.activeEntryDates db uid gid).length + 1 := by omega
  refine ⟨?_, ?_, ?_, by decide, by decide⟩
  · intro i hi
    simp only [Svc.calculate_streak] at hi
    exact backStreak_mem _ _ _ hi
  · simp only [Svc.calculate_streak]
    exact backStreak_stop _ _ hlt
  · intro htoday
    simp only [Svc.calculate_streak]
    rw [Svc.backStreak, if_neg htoday]

/-- Witness for C1 at a concrete scenario: day `today - 1` lies inside the
streak of `streakDB1`, hence carries an active entry. -/
theorem C1_calculate_streak_consecutive_days_witness :
    ((0 : Int) - ((1 : Nat) : Int)) ∈ Svc.activeEntryDates streakDB1 1 none :=
  (C1_calculate_streak_consecutive_days streakDB1 1 none 0).1 1 (by decide)

/-- C2: the code violates the at-most-one-active-entry invariant.  Running
create, soft-delete, create (same key), restore on an initially empty database
succeeds and leaves TWO active entries for the key (user 1, group 1, Health,
day 0): `restore_entry` never re-checks the uniqueness of the active key,
although `create_entry` does reject duplicates (first conjunct) and the model
file's own comment requires the service layer to enforce the constraint. -/
theorem C2_restore_reintroduces_duplicate_active_entry :
    duplicateCreateRun = .error "Entry already exists for this section today"
    ∧ restoreViolationRun.toOption.map (fun db => Svc.countActiveKey db 1 1 .Health 0)
        = some 2 := by
  constructor
  · decide
  · decide

/-- C3: evaluation of the all-3-sections streak at the failing input.  With
complete days exactly today (0) and two days ago (-2) — so yesterday (-1) is a
gap strictly inside the walk — `get_streak` returns 2: the loop's second
branch re-anchors on a one-day gap at EVERY step, not only when today itself
is not complete, contradicting the claim's (and the inline comment's) rule
that only the initial today-not-complete exception is tolerated, which would
give 1. -/
theorem C3_streak_loop_skips_interior_gap :
    (0 : Int) ∈ Mono.completeDates gapEntries 1 1
    ∧ (-1 : Int) ∉ Mono.completeDates gapEntries 1 1
    ∧ Mono.get_streak gapEntries 1 1 0 = 2 := by
  refine ⟨by decide, by decide, by decide⟩

/-- C4, counterexample: the service-level `create_entry` accepts an
`entry_date` strictly after today (5 > 0) without any error and stores the
future-dated row, so the claim "create_entry with a future entry_date always
raises a ValidationError" is false as stated. -/
theorem C4_service_create_entry_accepts_future_date :
    (Svc.create_entry emptySvcDB 1 1 .Health "hello" (some 5) 0 0).toOption.map
        (fun p => p.2.entry_date) = some 5
    ∧ (5 : Int) > 0 := by
  refine ⟨by decide, by decide⟩

/-- C4, amended: only the full backend's `create_or_update_entry` endpoint
enforces the future-date rule: once the group and membership checks pass, an
`entry_date` strictly after today is rejected with the 400 ValidationError
(first conjunct), and no run of the endpoint ever leaves a new row whose date
is after today (second conjunct). -/
theorem C4_amended_full_backend_rejects_future_date :
    (∀ (st : Mono.MState) (cur gid : Nat) (sec content : String) (d today now : Int),
        (st.groups.find? (fun g => g.id == gid)).isSome = true →
        (st.members.find? (Mono.memberRow gid cur)).isSome = true →
        d > today →
        Mono.create_or_update_entry st cur gid sec content (some d) today now
          = .error (400, "Cannot create entries for future dates"))
    ∧ (∀ (st : Mono.MState) (cur gid : Nat) (sec content : String)
        (entry_date : Option Int) (today now : Int) (st' : Mono.MState) (e' : Mono.MEntry),
        Mono.create_or_update_entry st cur gid sec content entry_date today now = .ok (st', e') →
        ∀ x ∈ st'.entries, x.date > today → x ∈ st.entries) := by
  constructor
  · intro st cur gid sec content d today now hgrp hmem hfut
    obtain ⟨g, hg⟩ := Option.isSome_iff_exists.mp hgrp
    obtain ⟨m, hm⟩ := Option.isSome_iff_exists.mp hmem
    simp [Mono.create_or_update_entry, hg, hm, hfut]
  · intro st cur gid sec content entry_date today now st' e' hok x hx hxd
    simp only [Mono.create_or_update_entry] at hok
    split at hok
    · exact absurd hok (by simp)
    · split at hok
      · exact absurd hok (by simp)
      · split at hok
        · exact absurd hok (by simp)
        · rename_i hnotfut
          split at hok
          · rename_i ex hex
            have hkey := List.find?_some hex
            have hexdate : ex.date = entry_date.getD today := by
              simp only [Mono.entryKeyRow, Bool.and_eq_true, beq_iff_eq] at hkey
              tauto
            simp only [Except.ok.injEq, Prod.mk.injEq] at hok
            obtain ⟨h1, h2⟩ := hok
            subst h1
            have hx2 : x ∈ replaceFirst (Mono.entryKeyRow cur gid sec (entry_date.getD today))
                (fun _ => { ex with content := content, updated_at := now }) st.entries := hx
            rcases mem_replaceFirst hx2 with h | ⟨y, hy, hpy, hxy⟩
            · exact h
            · exfalso
              have hxdate : x.date = ex.date := by rw [hxy]
              rw [hxdate, hexdate] at hxd
              omega
          · simp only [Except.ok.injEq, Prod.mk.injEq] at hok
            obtain ⟨h1, h2⟩ := hok
            subst h1
            have hx2 : x ∈ st.entries ++ [({ id := st.nextId, user_id := cur, group_id := gid, section_str := sec, content := content, date := entry_date.getD today, updated_at := now } : Mono.MEntry)] := hx
            rcases List.mem_append.mp hx2 with h | h
            · exact h
            · exfalso
              have hxe : x.date = entry_date.getD today := by
                rcases List.mem_singleton.mp h with rfl
                rfl
              rw [hxe] at hxd
              omega

/-- Witness for C4's amended theorem: on a concrete state with group 1 and
member 1, posting an entry dated tomorrow (day 1, today = 0) yields the 400
future-date error. -/
theorem C4_amended_full_backend_rejects_future_date_witness :
    Mono.create_or_update_entry monoState 1 1 "health" "x" (some 1) 0 0
      = .error (400, "Cannot create entries for future dates") :=
  C4_amended_full_backend_rejects_future_date.1 monoState 1 1 "health" "x" 1 0 0
    (by decide) (by decide) (by decide)

/-- C5, counterexample: the service-level `remove_member` performs no owner
check.  With group 1 whose `admin_id` is user 7 and user 7 holding the only
active membership, removing user 7 raises no error and soft-deletes the
owner's membership, so the claim "remove_member raises a ValidationError and
leaves all state unchanged when removing the owner" is false as stated. -/
theorem C5_service_remove_member_removes_owner :
    ownerSGroup.admin_id = some ownerMembership.user_id
    ∧ Svc.remove_member [ownerMembership] 1 7 99 = .ok [⟨0, 1, 7, some 99⟩] := by
  refine ⟨by decide, by decide⟩

/-- C5, amended: the endpoint-level `remove_member` of the monolithic backend
(and likewise the minimal variant) does enforce the rule: when the caller is
the group's owner and the target user is that owner, the request fails with
the 400 error and, every error being raised before any mutation, the state is
unchanged.  The service-level `remove_member` in `services/group.py` has no
such check. -/
theorem C5_amended_endpoint_rejects_owner_removal (st : Mono.MState)
    (gid uid cur : Nat) (g : Mono.MGroup)
    (hg : st.groups.find? (fun g' => g'.id == gid) = some g)
    (hown : g.owner_id = cur) (huid : uid = g.owner_id) :
    Mono.remove_member st gid uid cur = .error (400, "Cannot remove the group owner from the group") := by
  simp [Mono.remove_member, hg, hown, huid]

/-- Witness for C5's amended theorem: the owner of group 1 in `monoState`
trying to remove themselves gets the 400 error. -/
theorem C5_amended_endpoint_rejects_owner_removal_witness :
    Mono.remove_member monoState 1 1 1 = .error (400, "Cannot remove the group owner from the group") :=
  C5_amended_endpoint_rejects_owner_removal monoState 1 1 1
    { id := 1, name := "g", owner_id := 1 } (by decide) (by decide) (by decide)

/-- C6, counterexample: with the same request, the forgot-password response
differs depending on whether the email belongs to an account.  In the
monolithic backend (production, email configured, send succeeded) a known
email additionally gets `email_sent`; in the minimal variant a known email
additionally gets the reset token.  So "returns the same generic success
response in both runs" is false as stated. -/
theorem C6_forgot_password_responses_differ :
    Mono.forgot_password oneUser "alice@example.com" true true true ""
      ≠ Mono.forgot_password [] "alice@example.com" true true true ""
    ∧ Mini.forgot_password oneUser "alice@example.com"
      ≠ Mini.forgot_password [] "alice@example.com" := by
  refine ⟨by decide, by decide⟩

/-- C6, amended: the `message` field of the forgot-password response is the
same generic string on every run of either variant, regardless of account
existence, email configuration, production mode or mailer outcome; only the
auxiliary fields (`email_sent`, and in development the reset token and
diagnostics) differ with account existence. -/
theorem C6_amended_message_always_generic :
    (∀ (users : List Mono.MUser) (email : String) (isProduction emailConfigured sendOk : Bool)
        (sendError : String),
        (Mono.forgot_password users email isProduction emailConfigured sendOk sendError).message
          = Mono.genericForgotMessage)
    ∧ (∀ (users : List Mono.MUser) (email : String),
        (Mini.forgot_password users email).message = Mini.genericForgotMessage) := by
  constructor
  · intro users email isProduction emailConfigured sendOk sendError
    unfold Mono.forgot_password
    cases users.find? (fun u => u.email == email) with
    | none => rfl
    | some u =>
      cases emailConfigured with
      | true =>
        cases sendOk with
        | true => rfl
        | false => cases isProduction <;> rfl
      | false => cases isProduction <;> rfl
  · intro users email
    unfold Mini.forgot_password
    cases users.find? (fun u => u.email == email) <;> rfl

/-- C7: for every active entry, `update_entry` with content that is non-empty
after trimming succeeds and increases `edit_count` by exactly 1 (whatever the
optional section argument), while an update providing only a new section
succeeds, mutates the section and leaves `edit_count` unchanged. -/
theorem C7_edit_count_increment (db : Svc.ServiceDB) (eid : Nat)
    (e : Svc.SectionEntry) (c : String) (sOpt : Option Svc.SectionType)
    (s : Svc.SectionType) (now : Int)
    (hfind : db.entries.find? (Svc.isActiveWithId eid) = some e) :
    (pyStrip c ≠ "" →
      (Svc.update_entry db eid (some c) sOpt now).toOption.map (fun p => p.2.edit_count)
        = some (e.edit_count + 1))
    ∧ (Svc.update_entry db eid none (some s) now).toOption.map
        (fun p => (p.2.edit_count, p.2.section_type)) = some (e.edit_count, s) := by
  constructor
  · intro hc
    have hc2 : (pyStrip c == "") = false := by
      simp [hc]
    simp only [Svc.update_entry, Svc.getEntryById, hfind, Svc.applyUpdate, hc2]
    cases sOpt <;> simp [Except.toOption, Bind.bind, Except.bind]
  · simp only [Svc.update_entry, Svc.getEntryById, hfind, Svc.applyUpdate]
    simp [Except.toOption, Bind.bind, Except.bind]

/-- Witness for C7 on a concrete database: a content update bumps the count
from 0 to 1, a section-only update keeps it at 0 and sets the new section. -/
theorem C7_edit_count_increment_witness :
    (Svc.update_entry streakDB2 0 (some "new") none 5).toOption.map (fun p => p.2.edit_count)
      = some 1
    ∧ (Svc.update_entry streakDB2 0 none (some .Hela) 5).toOption.map
        (fun p => (p.2.edit_count, p.2.section_type)) = some (0, .Hela) := by
  have h := C7_edit_count_increment streakDB2 0 (sampleEntry 0 (-1)) "new" none .Hela 5 (by decide)
  exact ⟨h.1 (by decide), h.2⟩

/-- C8: whenever `transfer_ownership` succeeds, the requester was the group's
current owner, the new owner is not the requester and holds a membership row;
and the only change is the group's `owner_id`: the membership, user and entry
tables are untouched (so the previous owner's membership row survives), the
target group's owner becomes the new owner, and every other group is
unchanged. -/
theorem C8_transfer_ownership_guards_and_frame (st st' : Mono.MState)
    (gid newOwner cur : Nat)
    (h : Mono.transfer_ownership st gid newOwner cur = .ok st') :
    ∃ g, st.groups.find? (fun g' => g'.id == gid) = some g
      ∧ g.owner_id = cur
      ∧ newOwner ≠ cur
      ∧ (st.members.find? (Mono.memberRow gid newOwner)).isSome = true
      ∧ st'.members = st.members
      ∧ st'.users = st.users
      ∧ st'.entries = st.entries
      ∧ st'.groups.find? (fun g' => g'.id == gid) = some { g with owner_id := newOwner }
      ∧ ∀ g2 ∈ st.groups, g2.id ≠ gid → g2 ∈ st'.groups := by
  unfold Mono.transfer_ownership at h
  cases hg : st.groups.find? (fun g' => g'.id == gid) with
  | none => rw [hg] at h; exact absurd h (by simp)
  | some g =>
    rw [hg] at h
    dsimp only at h
    by_cases h1 : (g.owner_id != cur) = true
    · rw [if_pos h1] at h; exact absurd h (by simp)
    · rw [if_neg h1] at h
      by_cases h2 : (newOwner == cur) = true
      · rw [if_pos h2] at h; exact absurd h (by simp)
      · rw [if_neg h2] at h
        by_cases h3 : (st.members.find? (Mono.memberRow gid newOwner)).isNone = true
        · rw [if_pos h3] at h; exact absurd h (by simp)
        · rw [if_neg h3] at h
          by_cases h4 : (st.users.find? (fun u => u.id == newOwner)).isNone = true
          · rw [if_pos h4] at h; exact absurd h (by simp)
          · rw [if_neg h4] at h
            have hst' : ({ st with groups := (replaceFirst (fun g' => g'.id == gid)
                (fun g' => { g' with owner_id := newOwner }) st.groups) } : Mono.MState) = st' := by
              injection h
            subst hst'
            have hgid := List.find?_some hg
            refine ⟨g, rfl, ?_, ?_, ?_, rfl, rfl, rfl, ?_, ?_⟩
            · simpa using h1
            · simpa using h2
            · cases hm : st.members.find? (Mono.memberRow gid newOwner) with
              | none => rw [hm] at h3; exact absurd rfl h3
              | some m => rfl
            · exact find?_replaceFirst_same hg (by simpa using hgid)
            · intro g2 hg2 hne
              exact mem_replaceFirst_of_neg hg2 (by simpa using hne)

/-- Witness for C8: the concrete successful transfer of group 1 from user 1 to
user 2 in `monoState` satisfies all guards and the frame conditions. -/
theorem C8_transfer_ownership_guards_and_frame_witness :
    ∃ g, monoState.groups.find? (fun g' => g'.id == 1) = some g
      ∧ g.owner_id = 1
      ∧ (2 : Nat) ≠ 1
      ∧ (monoState.members.find? (Mono.memberRow 1 2)).isSome = true
      ∧ monoStateAfterTransfer.members = monoState.members
      ∧ monoStateAfterTransfer.users = monoState.users
      ∧ monoStateAfterTransfer.entries = monoState.entries
      ∧ monoStateAfterTransfer.groups.find? (fun g' => g'.id == 1)
          = some { g with owner_id := 2 }
      ∧ ∀ g2 ∈ monoState.groups, g2.id ≠ 1 → g2 ∈ monoStateAfterTransfer.groups :=
  C8_transfer_ownership_guards_and_frame monoState monoStateAfterTransfer 1 2 1 (by decide)

/-! ### Lemmas for restating the per-user average as total-over-headcount -/

theorem countActiveByUsers_nil (entries : List Svc.SectionEntry) (gid : Nat) :
    Svc.countActiveByUsers entries gid [] = 0 := by
  induction entries with
  | nil => rfl
  | cons e es ih =>
    simp only [Svc.countActiveByUsers, List.filter_cons] at ih ⊢
    simp [ih]

theorem length_filter_split {α} (q r s : α → Bool)
    (hs : ∀ x, s x = (q x || r x)) (hdisj : ∀ x, q x = true → r x = false) :
    ∀ l : List α, (l.filter s).length = (l.filter q).length + (l.filter r).length := by
  intro l
  induction l with
  | nil => rfl
  | cons x xs ih =>
    simp only [List.filter_cons, hs]
    cases hq : q x with
    | true =>
      have hr := hdisj x hq
      simp only [hq, hr, Bool.true_or, if_true, Bool.false_eq_true, if_false, List.length_cons, ih]
      omega
    | false =>
      cases hr : r x with
      | true =>
        simp only [hq, hr, Bool.false_or, if_true, Bool.false_eq_true, if_false,
          List.length_cons, ih]
        omega
      | false =>
        simp only [hq, hr, Bool.false_or, Bool.false_eq_true, if_false, ih]

theorem countActiveByUsers_cons (entries : List Svc.SectionEntry) (gid a : Nat)
    (t : List Nat) (hat : a ∉ t) :
    Svc.countActiveByUsers entries gid (a :: t)
      = Svc.userEntryCount entries gid a + Svc.countActiveByUsers entries gid t := by
  simp only [Svc.countActiveByUsers, Svc.userEntryCount]
  refine length_filter_split _ _ _ ?_ ?_ entries
  · intro e
    by_cases h1 : e.user_id = a <;> by_cases h2 : e.user_id ∈ t <;>
      simp [h1, h2, List.mem_cons]
  · intro e hq
    have h1 : e.user_id = a := by
      simp only [Bool.and_eq_true, beq_iff_eq] at hq
      exact hq.1
    simp [h1, hat]

theorem sum_userEntryCount (entries : List Svc.SectionEntry) (gid : Nat) :
    ∀ (ids : List Nat), ids.Nodup →
    (ids.map (fun i => Svc.userEntryCount entries gid i)).sum
      = Svc.countActiveByUsers entries gid ids := by
  intro ids
  induction ids with
  | nil => intro _; simp [countActiveByUsers_nil]
  | cons a t ih =>
    intro hnd
    rw [List.nodup_cons] at hnd
    rw [List.map_cons, List.sum_cons, ih hnd.2, countActiveByUsers_cons entries gid a t hnd.1]

/-- C9, counterexample: with two non-deleted users of which only user 1 has
(two) active in-window entries in group 1, the code's `avg_streak` is
(2+0)/2 = 1, while the claim's mean across active users of their total
active-entry counts is 2/1 = 2, so the claim is false as stated: the code
averages over ALL non-deleted users of the system, not over the active users
of the window. -/
theorem C9_avg_streak_differs_from_claim :
    Svc.avg_streak twoSUsers analyticsEntries 1 = 1
    ∧ Svc.avgStreakPerClaim analyticsEntries 1 (-30) 0 = 2
    ∧ Svc.avg_streak twoSUsers analyticsEntries 1
        ≠ Svc.avgStreakPerClaim analyticsEntries 1 (-30) 0 := by
  have h1 : Svc.avg_streak twoSUsers analyticsEntries 1 = 1 := by
    have e1 : ((twoSUsers.filter (fun u => u.deleted_at == none)).map
        (fun u => Svc.userEntryCount analyticsEntries 1 u.id)).sum = 2 := by decide
    have e2 : (twoSUsers.filter (fun u => u.deleted_at == none)).length = 2 := by decide
    have e3 : (twoSUsers.filter (fun u => u.deleted_at == none)).isEmpty = false := by decide
    simp only [Svc.avg_streak, e1, e2, e3]
    norm_num
  have h2 : Svc.avgStreakPerClaim analyticsEntries 1 (-30) 0 = 2 := by
    have e1 : ((Svc.activeUserIdsInWindow analyticsEntries 1 (-30) 0).map
        (fun i => Svc.userEntryCount analyticsEntries 1 i)).sum = 2 := by decide
    have e2 : (Svc.activeUserIdsInWindow analyticsEntries 1 (-30) 0).length = 1 := by decide
    have e3 : (Svc.activeUserIdsInWindow analyticsEntries 1 (-30) 0).isEmpty = false := by decide
    simp only [Svc.avgStreakPerClaim, e1, e2, e3]
    norm_num
  refine ⟨h1, h2, ?_⟩
  rw [h1, h2]
  norm_num

/-- C9, amended: `avg_streak` equals the total number of active entries in the
group authored by the system's non-deleted users, divided by the number of
non-deleted users (whether or not they belong to the group or were active in
the window); no date window is applied.  Stated for user tables with distinct
ids (the primary-key invariant). -/
theorem C9_amended_avg_streak_total_over_headcount (users : List Svc.SUser)
    (entries : List Svc.SectionEntry) (gid : Nat)
    (hnd : (users.map (fun u => u.id)).Nodup)
    (hne : users.filter (fun u => u.deleted_at == none) ≠ []) :
    Svc.avg_streak users entries gid
      = (Svc.countActiveByUsers entries gid
            ((users.filter (fun u => u.deleted_at == none)).map (fun u => u.id)) : Rat)
        / ((users.filter (fun u => u.deleted_at == none)).length : Rat) := by
  have hsubl : (users.filter (fun u => u.deleted_at == none)).Sublist users :=
    List.filter_sublist _
  have hsub : ((users.filter (fun u => u.deleted_at == none)).map (fun u => u.id)).Nodup :=
    List.Nodup.sublist (List.Sublist.map _ hsubl) hnd
  have hempty : (users.filter (fun u => u.deleted_at == none)).isEmpty = false := by
    cases hfe : users.filter (fun u => u.deleted_at == none) with
    | nil => exact absurd hfe hne
    | cons a t => rfl
  have hsum := sum_userEntryCount entries gid
    ((users.filter (fun u => u.deleted_at == none)).map (fun u => u.id)) hsub
  simp only [Svc.avg_streak, hempty, Bool.false_eq_true, if_false]
  rw [← hsum, List.map_map]
  rfl

/-- Witness for C9's amended theorem at the concrete two-user state. -/
theorem C9_amended_avg_streak_total_over_headcount_witness :
    Svc.avg_streak twoSUsers analyticsEntries 1
      = (Svc.countActiveByUsers analyticsEntries 1
            ((twoSUsers.filter (fun u => u.deleted_at == none)).map (fun u => u.id)) : Rat)
        / ((twoSUsers.filter (fun u => u.deleted_at == none)).length : Rat) :=
  C9_amended_avg_streak_total_over_headcount twoSUsers analyticsEntries 1
    (by decide) (by decide)

/-- With pairwise-distinct ids (the primary-key invariant), replacing the row
found under predicate `p` and re-querying under another id-pinning predicate
`q` returns exactly the replaced row. -/
theorem find?_replaceFirst_of_unique_id
    (l : List Svc.SectionEntry) (p q : Svc.SectionEntry → Bool)
    (f : Svc.SectionEntry → Svc.SectionEntry) (e : Svc.SectionEntry) (eid : Nat)
    (hnd : (l.map (fun x => x.id)).Nodup)
    (hfind : l.find? p = some e)
    (hpid : ∀ x, p x = true → x.id = eid)
    (hqid : ∀ x, q x = true → x.id = eid)
    (hqf : q (f e) = true) :
    (replaceFirst p f l).find? q = some (f e) := by
  induction l with
  | nil => simp at hfind
  | cons a t ih =>
    rw [List.map_cons, List.nodup_cons] at hnd
    cases hpa : p a with
    | true =>
      rw [List.find?_cons_of_pos _ hpa] at hfind
      have hea : a = e := by injection hfind
      subst hea
      simp only [replaceFirst, hpa, if_true]
      exact List.find?_cons_of_pos _ hqf
    | false =>
      rw [List.find?_cons_of_neg _ (by simp [hpa])] at hfind
      have hmem : e ∈ t := List.mem_of_find?_eq_some hfind
      have hpe := List.find?_some hfind
      have heid : e.id = eid := hpid e hpe
      have hqa : q a = false := by
        cases hqa2 : q a with
        | false => rfl
        | true =>
          exfalso
          have haid : a.id = eid := hqid a hqa2
          have hidmem : a.id ∈ t.map (fun x => x.id) := by
            rw [haid, ← heid]
            exact List.mem_map_of_mem (fun x => x.id) hmem
          exact hnd.1 hidmem
      simp only [replaceFirst, hpa, Bool.false_eq_true, if_false]
      rw [List.find?_cons_of_neg _ (by simp [hqa])]
      exact ih hnd.2 hfind

/-- C10: on a database with distinct entry ids, `soft_delete_entry` of an
active entry changes only that entry's `deleted_at` (plus the ORM-managed
`updated_at`): the row re-fetched by id and owner keeps its content, section,
edit count, date, flag state and flag reason; and `restore_entry` after the
soft delete returns the entry with exactly the field values it had before
deletion and `deleted_at` cleared. -/
theorem C10_soft_delete_restore_frame (db : Svc.ServiceDB) (eid : Nat)
    (e : Svc.SectionEntry) (now1 now2 : Int)
    (hnd : (db.entries.map (fun x => x.id)).Nodup)
    (hfind : db.entries.find? (Svc.isActiveWithId eid) = some e) :
    ∃ db1, Svc.soft_delete_entry db eid now1 = .ok db1
      ∧ db1.entries.find? (Svc.isOwnedWithId eid e.user_id)
          = some { e with deleted_at := some now1, updated_at := now1 }
      ∧ (Svc.restore_entry db1 eid e.user_id now2).toOption.map
          (fun p => (p.2.content, p.2.section_type, p.2.edit_count, p.2.entry_date,
                     p.2.is_flagged, p.2.flagged_reason, p.2.deleted_at))
        = some (e.content, e.section_type, e.edit_count, e.entry_date,
                e.is_flagged, e.flagged_reason, none) := by
  have hpe := List.find?_some hfind
  have heid : e.id = eid := by
    simp only [Svc.isActiveWithId, Bool.and_eq_true, beq_iff_eq] at hpe
    exact hpe.1
  have hq : (replaceFirst (Svc.isActiveWithId eid)
        (fun x => { x with deleted_at := some now1, updated_at := now1 })
        db.entries).find? (Svc.isOwnedWithId eid e.user_id)
      = some { e with deleted_at := some now1, updated_at := now1 } := by
    refine find?_replaceFirst_of_unique_id db.entries _ _ _ e eid hnd hfind ?_ ?_ ?_
    · intro x hx
      simp only [Svc.isActiveWithId, Bool.and_eq_true, beq_iff_eq] at hx
      exact hx.1
    · intro x hx
      simp only [Svc.isOwnedWithId, Bool.and_eq_true, beq_iff_eq] at hx
      exact hx.1
    · simp [Svc.isOwnedWithId, heid]
  refine ⟨{ db with entries := (replaceFirst (Svc.isActiveWithId eid)
      (fun x => { x with deleted_at := some now1, updated_at := now1 }) db.entries) }, ?_, hq, ?_⟩
  · simp [Svc.soft_delete_entry, Svc.getEntryById, hfind, Bind.bind, Except.bind]
  · simp only [Svc.restore_entry, hq]
    rfl

/-- Witness for C10: the round trip on the concrete database `streakDB1`
(soft-delete entry 0 at time 5, restore at time 7) preserves all listed
fields. -/
theorem C10_soft_delete_restore_frame_witness :
    ∃ db1, Svc.soft_delete_entry streakDB1 0 5 = .ok db1
      ∧ db1.entries.find? (Svc.isOwnedWithId 0 (sampleEntry 0 0).user_id)
          = some { sampleEntry 0 0 with deleted_at := some 5, updated_at := 5 }
      ∧ (Svc.restore_entry db1 0 (sampleEntry 0 0).user_id 7).toOption.map
          (fun p => (p.2.content, p.2.section_type, p.2.edit_count, p.2.entry_date,
                     p.2.is_flagged, p.2.flagged_reason, p.2.deleted_at))
        = some ((sampleEntry 0 0).content, (sampleEntry 0 0).section_type,
                (sampleEntry 0 0).edit_count, (sampleEntry 0 0).entry_date,
                (sampleEntry 0 0).is_flagged, (sampleEntry 0 0).flagged_reason, none) :=
  C10_soft_delete_restore_frame streakDB1 0 (sampleEntry 0 0) 5 7 (by decide) (by decide)
